import Mathlib

/-!
# krew: `update` and `system` commands

A shallow embedding of `cmd/krew/cmd/update.go` and `cmd/krew/cmd/system.go`.

* Go maps keyed by strings are total lookup functions `String → Option α`
  (`m[k]` with the comma-ok form is `m k`; `m[k] = v` is `GoMap.set`).
* An `io.Writer` is the list of chunks written to it so far, oldest first.
* A Go `error` value is `Option GoError`, `none` being `nil`.
* The collaborators that are called but not defined in these files
  (`indexoperations.ListIndexes`, `indexscanner.LoadPluginListFromFS`,
  `gitutil.EnsureUpdated`, `installation.GetInstalledPluginReceipts`, the
  `paths` object and the constants) are parameters of the model.
-/

namespace Krew

/-! ## Data model -/

/-- The part of `index.PluginSpec` read by the update command. -/
structure PluginSpec where
  Version : String
  deriving DecidableEq, Repr, Inhabited

/-- The part of `index.Plugin` read by the update command. -/
structure Plugin where
  Name : String
  Spec : PluginSpec
  deriving DecidableEq, Repr, Inhabited

/-- An installation receipt (`index.Receipt`), which carries a plugin's name and spec. -/
structure Receipt where
  Name : String
  Spec : PluginSpec
  deriving DecidableEq, Repr, Inhabited

/-- One registered index (`indexoperations.Index`). -/
structure Index where
  Name : String
  URL : String
  deriving DecidableEq, Repr, Inhabited

/-- A Go map with string keys. -/
abbrev GoMap (α : Type) := String → Option α

/-- The result of `make(map[string]α)`. -/
def GoMap.empty {α : Type} : GoMap α := fun _ => none

/-- The assignment `m[k] = v`. -/
def GoMap.set {α : Type} (m : GoMap α) (k : String) (v : α) : GoMap α :=
  fun k' => if k' = k then some v else m k'

/-- The single-value index expression `m[k]`: the zero value when the key is absent. -/
def GoMap.index {α : Type} [Inhabited α] (m : GoMap α) (k : String) : α :=
  (m k).getD default

/-- An `io.Writer`: the chunks written so far. -/
abbrev Writer := List String

/-! ## `update.go`: the diff report -/

/-- The function `showFormattedPluginsInfo`: the header line and one bullet line per
plugin are collected in a buffer, which is written to `out` in one piece. -/
def showFormattedPluginsInfo (out : Writer) (header : String) (plugins : List String) : Writer :=
  let b : String := ""
  let b := b ++ ("  " ++ header ++ ":\n")
  let b := plugins.foldl (fun b p => b ++ ("    * " ++ p ++ "\n")) b
  out ++ [b]

/-- Lines 66-69 of `showUpdatedPlugins`: the lookup map of the pre-update plugins. -/
def oldIndexOf (preUpdate : List Plugin) : GoMap Plugin :=
  preUpdate.foldl (fun m p => m.set p.Name p) GoMap.empty

/-- One iteration of the loop over `posUpdate` (lines 71-85) on the pair
`(newPlugins, updatedPlugins)`. -/
def scanStep (oldIndex : GoMap Plugin) (installedPlugins : GoMap String)
    (acc : List Plugin × List Plugin) (p : Plugin) : List Plugin × List Plugin :=
  match oldIndex p.Name with
  | none => (acc.1 ++ [p], acc.2)
  | some old =>
    match installedPlugins p.Name with
    | none => acc
    | some _ =>
      if old.Spec.Version ≠ p.Spec.Version then (acc.1, acc.2 ++ [p]) else acc

/-- The loop over `posUpdate` (lines 71-85): the final `(newPlugins, updatedPlugins)`. -/
def scanPosUpdate (oldIndex : GoMap Plugin) (installedPlugins : GoMap String)
    (posUpdate : List Plugin) : List Plugin × List Plugin :=
  posUpdate.foldl (scanStep oldIndex installedPlugins) ([], [])

/-- Lines 88-91: the names of the new plugins. -/
def newPluginItems (newPlugins : List Plugin) : List String :=
  newPlugins.foldl (fun s p => s ++ [p.Name]) []

/-- Lines 97-101: one `name old -> new` item per updated plugin. -/
def updatedPluginItems (oldIndex : GoMap Plugin) (updatedPlugins : List Plugin) : List String :=
  updatedPlugins.foldl
    (fun s p =>
      let old := oldIndex.index p.Name
      s ++ [p.Name ++ " " ++ old.Spec.Version ++ " -> " ++ p.Spec.Version])
    []

/-- The function `showUpdatedPlugins`. -/
def showUpdatedPlugins (out : Writer) (preUpdate posUpdate : List Plugin)
    (installedPlugins : GoMap String) : Writer :=
  let oldIndex := oldIndexOf preUpdate
  let scanned := scanPosUpdate oldIndex installedPlugins posUpdate
  let newPlugins := scanned.1
  let updatedPlugins := scanned.2
  let out :=
    if newPlugins.length > 0 then
      showFormattedPluginsInfo out "New plugins available" (newPluginItems newPlugins)
    else out
  let out :=
    if updatedPlugins.length > 0 then
      showFormattedPluginsInfo out "Upgrades available for installed plugins"
        (updatedPluginItems oldIndex updatedPlugins)
    else out
  out

/-! ## Errors (`github.com/pkg/errors`) -/

/-- A non-nil Go error: a plain error, or a cause annotated with a message by
`errors.Wrap` / `errors.Wrapf`. -/
inductive GoError where
  | base (msg : String)
  | wrapped (msg : String) (cause : GoError)
  deriving DecidableEq, Repr, Inhabited

/-- The method `Error()`: an annotated error prints as `msg: cause`. -/
def GoError.Error : GoError → String
  | .base msg => msg
  | .wrapped msg cause => msg ++ ": " ++ cause.Error

/-- The annotation added by the outermost wrap (the whole text for a plain error). -/
def GoError.message : GoError → String
  | .base msg => msg
  | .wrapped msg _ => msg

/-- The directly wrapped error, if any. -/
def GoError.cause : GoError → Option GoError
  | .base _ => none
  | .wrapped _ cause => some cause

/-- The function `errors.Wrap`: nil stays nil, any other error is annotated. -/
def Wrap (err : Option GoError) (message : String) : Option GoError :=
  match err with
  | none => none
  | some e => some (.wrapped message e)

/-- The function `errors.Wrapf`, applied to the already formatted message. -/
def Wrapf (err : Option GoError) (formatted : String) : Option GoError :=
  Wrap err formatted

/-! ## `update.go`: `ensureIndexesUpdated` -/

/-- The `paths` object (`environment.Paths`), as far as it is used here. -/
structure Paths where
  IndexPath : String → String
  IndexPluginsPath : String → String
  InstallReceiptsPath : String

/-- The external collaborators. `LoadPluginListFromFS` and `EnsureUpdated` are called
more than once; their first argument is the number of earlier calls of the same
function, so that each call can have its own result. A result is the Go pair
`(value, err)`. -/
structure Collaborators where
  ListIndexes : List Index × Option GoError
  LoadPluginListFromFS : Nat → String → List Plugin × Option GoError
  EnsureUpdated : Nat → String → String → Option GoError
  GetInstalledPluginReceipts : String → List Receipt × Option GoError

/-- What `ensureIndexesUpdated` does to the outside world, in order. A message handed
to `klog` is an event of its own: `klog` puts its own header before the text and, in
its default setting, sends the line to `os.Stderr` as well (see `stderrOutput`). -/
inductive Event where
  /-- The call `klog.V(1).Infof("Updating the local copy of plugin index (%s)", indexPath)` -/
  | klogInfo (indexPath : String)
  /-- The call `klog.Warningf("failed to update index %q: %v", name, err)` -/
  | klogWarning (name : String) (err : GoError)
  /-- A call `gitutil.EnsureUpdated(uri, path)` -/
  | ensureUpdated (uri path : String)
  /-- A chunk the function writes to `os.Stderr` itself, with `fmt` -/
  | stderr (chunk : String)
  deriving DecidableEq, Repr

/-- The arguments of the sync calls in a trace, in order. -/
def syncCalls : List Event → List (String × String)
  | [] => []
  | .ensureUpdated uri path :: es => (uri, path) :: syncCalls es
  | _ :: es => syncCalls es

/-- The chunks the function itself writes to `os.Stderr` with `fmt` (the confirmation
line and the report), in order. The lines of `klog` are not among them; `stderrOutput`
has both. -/
def stderrWrites : List Event → List String
  | [] => []
  | .stderr chunk :: es => chunk :: stderrWrites es
  | _ :: es => stderrWrites es

/-- Everything of a trace that reaches `os.Stderr`, in order, with `klog` logging to
standard error at verbosity `v`: the chunks written with `fmt`, every warning, and the
`V(1)` information lines when `1 ≤ v`. Sync calls write nothing. -/
def stderrOutput (v : Nat) : List Event → List Event
  | [] => []
  | .stderr chunk :: es => .stderr chunk :: stderrOutput v es
  | .klogWarning name err :: es => .klogWarning name err :: stderrOutput v es
  | .klogInfo indexPath :: es =>
    if 1 ≤ v then .klogInfo indexPath :: stderrOutput v es else stderrOutput v es
  | .ensureUpdated _ _ :: es => stderrOutput v es

/-- The local variables of the loop over the indexes, the trace so far and the
number of sync calls made so far. -/
structure SyncState where
  failed : List String
  returnErr : Option GoError
  trace : List Event
  calls : Nat

/-- One iteration of the loop over `indexes` (lines 117-127). -/
def syncStep (c : Collaborators) (paths : Paths) (st : SyncState) (idx : Index) : SyncState :=
  let indexPath := paths.IndexPath idx.Name
  let trace := st.trace ++ [Event.klogInfo indexPath, Event.ensureUpdated idx.URL indexPath]
  match c.EnsureUpdated st.calls idx.URL indexPath with
  | some err =>
    { failed := st.failed ++ [idx.Name]
      returnErr := if st.returnErr = none then some err else st.returnErr
      trace := trace ++ [Event.klogWarning idx.Name err]
      calls := st.calls + 1 }
  | none => { st with trace := trace, calls := st.calls + 1 }

/-- The line printed by `fmt.Fprintln(os.Stderr, ...)` once all indexes were tried. -/
def confirmationLine : String := "Updated the local copy of plugin index.\n"

/-- Lines 144-147: the map from installed plugin name to installed version. -/
def installedPluginsOf (receipts : List Receipt) : GoMap String :=
  receipts.foldl (fun m receipt => m.set receipt.Name receipt.Spec.Version) GoMap.empty

/-- The function `ensureIndexesUpdated`: the returned error and the trace of effects. -/
def ensureIndexesUpdated (c : Collaborators) (paths : Paths) (DefaultIndexName : String) :
    Option GoError × List Event :=
  let preUpdateIndex := (c.LoadPluginListFromFS 0 (paths.IndexPluginsPath DefaultIndexName)).1
  match c.ListIndexes with
  | (_, some err) => (Wrap (some err) "failed to list indexes", [])
  | (indexes, none) =>
    let st := indexes.foldl (syncStep c paths) ⟨[], none, [], 0⟩
    let trace := st.trace ++ [Event.stderr confirmationLine]
    if preUpdateIndex.length = 0 then (none, trace)
    else
      match c.LoadPluginListFromFS 1 (paths.IndexPluginsPath DefaultIndexName) with
      | (_, some err) => (Wrap (some err) "failed to load plugin index after update", trace)
      | (posUpdateIndex, none) =>
        match c.GetInstalledPluginReceipts paths.InstallReceiptsPath with
        | (_, some err) =>
          (Wrap (some err) "failed to load installed plugins list after update", trace)
        | (receipts, none) =>
          let installedPlugins := installedPluginsOf receipts
          let report := showUpdatedPlugins [] preUpdateIndex posUpdateIndex installedPlugins
          (Wrapf st.returnErr
              ("failed to update the following indexes: " ++ ", ".intercalate st.failed ++ "\n"),
            trace ++ report.map Event.stderr)

/-! ## `system.go`: command registration -/

/-- A `cobra.Command`, as far as registration is concerned. -/
inductive Command where
  | mk (Use : String) (Hidden : Bool) (commands : List Command)

/-- The field `Use`. -/
def Command.Use : Command → String
  | .mk u _ _ => u

/-- The registered subcommands. -/
def Command.commands : Command → List Command
  | .mk _ _ cs => cs

/-- The method `AddCommand` with one argument: the subcommand is appended. -/
def Command.AddCommand : Command → Command → Command
  | .mk u h cs, sub => .mk u h (cs ++ [sub])

/-- The function `os.LookupEnv` over the process environment. -/
def LookupEnv (environ : List (String × String)) (key : String) : String × Bool :=
  match environ.lookup key with
  | some v => (v, true)
  | none => ("", false)

/-- The variable `systemCmd` as declared. -/
def systemCmd : Command := .mk "system" true []

/-- The variable `receiptsUpgradeCmd` as declared. -/
def receiptsUpgradeCmd : Command := .mk "receipts-upgrade" false []

/-- The variable `indexUpgradeCmd` as declared. -/
def indexUpgradeCmd : Command := .mk "index-upgrade" false []

/-- The function `init` of `system.go`: the values of `systemCmd` and `rootCmd`
once it has run. -/
def systemInit (environ : List (String × String)) (EnableMultiIndexSwitch : String)
    (rootCmd : Command) : Command × Command :=
  let systemCmd :=
    if (LookupEnv environ EnableMultiIndexSwitch).2 then systemCmd.AddCommand indexUpgradeCmd
    else systemCmd
  let systemCmd := systemCmd.AddCommand receiptsUpgradeCmd
  (systemCmd, rootCmd.AddCommand systemCmd)

/-! ## Vocabulary of the specification -/

/-- The bullet lines of a section: one line `    * item` per item. -/
def bulletLines : List String → String
  | [] => ""
  | item :: items => "    * " ++ item ++ "\n" ++ bulletLines items

/-- A rendered section: the line `  header:` followed by the bullet lines. -/
def sectionText (header : String) (items : List String) : String :=
  "  " ++ header ++ ":\n" ++ bulletLines items

/-- A section that is written only when it has an item. -/
def sectionIfAny (header : String) (items : List String) : List String :=
  if items = [] then [] else [sectionText header items]

/-- The post entry `p` is new: no pre entry has its name. -/
def IsNew (pre : List Plugin) (p : Plugin) : Prop :=
  ∀ q ∈ pre, q.Name ≠ p.Name

instance (pre : List Plugin) : DecidablePred (IsNew pre) := fun p => by
  unfold IsNew; infer_instance

/-- The post entry `p` is an upgrade of an installed plugin: some pre entry has its
name with another version string, and its name is a key of `installed`. -/
def IsUpgrade (pre : List Plugin) (installed : GoMap String) (p : Plugin) : Prop :=
  (∃ q ∈ pre, q.Name = p.Name ∧ q.Spec.Version ≠ p.Spec.Version) ∧
    (installed p.Name).isSome = true

instance (pre : List Plugin) (installed : GoMap String) :
    DecidablePred (IsUpgrade pre installed) := fun p => by
  unfold IsUpgrade; infer_instance

/-- The version of the pre entry called `name` (empty when there is none). -/
def preVersion (pre : List Plugin) (name : String) : String :=
  match pre.find? (fun q => q.Name = name) with
  | some q => q.Spec.Version
  | none => ""

/-- The upgrade line of a post entry: `name preVersion -> postVersion`. -/
def upgradeLine (pre : List Plugin) (p : Plugin) : String :=
  p.Name ++ " " ++ preVersion pre p.Name ++ " -> " ++ p.Spec.Version

/-- The outcome of every sync call, in registry order: the call for the `i`-th
registered index is sync call number `start + i`. -/
def syncOutcomesFrom (c : Collaborators) (paths : Paths) :
    Nat → List Index → List (Index × Option GoError)
  | _, [] => []
  | start, idx :: rest =>
    (idx, c.EnsureUpdated start idx.URL (paths.IndexPath idx.Name)) ::
      syncOutcomesFrom c paths (start + 1) rest

/-- The outcome of every sync call of one run, in registry order. -/
def syncOutcomes (c : Collaborators) (paths : Paths) (indexes : List Index) :
    List (Index × Option GoError) :=
  syncOutcomesFrom c paths 0 indexes

/-- The names of the indexes whose sync failed, in registry order. -/
def failedNames (outcomes : List (Index × Option GoError)) : List String :=
  (outcomes.filter (fun o => o.2.isSome)).map (fun o => o.1.Name)

/-- The error of the first index whose sync failed, in registry order. -/
def firstSyncError (outcomes : List (Index × Option GoError)) : Option GoError :=
  outcomes.findSome? (fun o => o.2)

/-- The `klog` lines of the sync loop that reach standard error at verbosity `v`, for
given sync outcomes: per index the information line when `1 ≤ v`, then the warning when
its sync failed. -/
def klogLines (paths : Paths) (v : Nat) : List (Index × Option GoError) → List Event
  | [] => []
  | (idx, outcome) :: rest =>
    (if 1 ≤ v then [Event.klogInfo (paths.IndexPath idx.Name)] else []) ++
      (match outcome with
        | some err => [Event.klogWarning idx.Name err]
        | none => []) ++
      klogLines paths v rest

/-- The string `name` occurs in the string `text`. -/
def Mentions (text name : String) : Prop := name.data <:+: text.data

instance (text name : String) : Decidable (Mentions text name) := by
  unfold Mentions; infer_instance

/-! ## Example runs -/

/-- A layout of the krew home. -/
def examplePaths : Paths where
  IndexPath := fun name => "/krew/index/" ++ name
  IndexPluginsPath := fun name => "/krew/index/" ++ name ++ "/plugins"
  InstallReceiptsPath := "/krew/receipts"

/-- Three indexes, of which the second and the third fail to sync; `foo` is installed
and gets a new version, `bar` is new. -/
def partialFailure : Collaborators where
  ListIndexes := ([⟨"default", "https://a"⟩, ⟨"custom", "https://b"⟩, ⟨"third", "https://c"⟩], none)
  LoadPluginListFromFS := fun call _ =>
    if call = 0 then ([⟨"foo", ⟨"1.0"⟩⟩], none)
    else ([⟨"foo", ⟨"2.0"⟩⟩, ⟨"bar", ⟨"1.0"⟩⟩], none)
  EnsureUpdated := fun call _ _ =>
    if call = 1 then some (.base "net down") else if call = 2 then some (.base "denied") else none
  GetInstalledPluginReceipts := fun _ => ([⟨"foo", ⟨"1.0"⟩⟩], none)

/-- Two indexes, of which the second fails to sync; the default index cannot be read
back after the update. -/
def postLoadFailure : Collaborators where
  ListIndexes := ([⟨"default", "https://a"⟩, ⟨"custom", "https://b"⟩], none)
  LoadPluginListFromFS := fun call _ =>
    if call = 0 then ([⟨"foo", ⟨"1.0"⟩⟩], none) else ([], some (.base "EOF"))
  EnsureUpdated := fun call _ _ => if call = 1 then some (.base "net down") else none
  GetInstalledPluginReceipts := fun _ => ([⟨"foo", ⟨"1.0"⟩⟩], none)

/-- Two indexes, of which the second fails to sync; the receipts cannot be read. -/
def receiptsFailure : Collaborators where
  ListIndexes := ([⟨"default", "https://a"⟩, ⟨"custom", "https://b"⟩], none)
  LoadPluginListFromFS := fun call _ =>
    if call = 0 then ([⟨"foo", ⟨"1.0"⟩⟩], none) else ([⟨"foo", ⟨"2.0"⟩⟩], none)
  EnsureUpdated := fun call _ _ => if call = 1 then some (.base "net down") else none
  GetInstalledPluginReceipts := fun _ => ([], some (.base "bad receipt"))

/-- A first sync: nothing can be loaded before the update, and the only index fails
to sync. -/
def firstSyncFailure : Collaborators where
  ListIndexes := ([⟨"default", "https://a"⟩], none)
  LoadPluginListFromFS := fun call _ =>
    if call = 0 then ([], some (.base "no such directory")) else ([⟨"foo", ⟨"2.0"⟩⟩], none)
  EnsureUpdated := fun _ _ _ => some (.base "net down")
  GetInstalledPluginReceipts := fun _ => ([⟨"foo", ⟨"1.0"⟩⟩], none)

/-- The test of the loop body that puts a post entry in `newPlugins`. -/
def isNewB (oi : GoMap Plugin) (p : Plugin) : Bool := (oi p.Name).isNone

/-- The test of the loop body that puts a post entry in `updatedPlugins`. -/
def isUpdB (oi : GoMap Plugin) (inst : GoMap String) (p : Plugin) : Bool :=
  match oi p.Name with
  | none => false
  | some old => (inst p.Name).isSome && decide (old.Spec.Version ≠ p.Spec.Version)

/-! ## Lemmas on the diff report -/

theorem foldl_bullets (items : List String) (b : String) :
    items.foldl (fun b p => b ++ ("    * " ++ p ++ "\n")) b = b ++ bulletLines items := by
  induction items generalizing b with
  | nil => simp [bulletLines]
  | cons i is ih =>
    rw [List.foldl_cons, ih]
    simp [bulletLines, String.append_assoc]

theorem showFormattedPluginsInfo_eq (out : Writer) (header : String) (items : List String) :
    showFormattedPluginsInfo out header items = out ++ [sectionText header items] := by
  simp only [showFormattedPluginsInfo, foldl_bullets, sectionText]
  simp [String.append_assoc]

theorem foldl_snoc_map {α β : Type} (f : α → β) (l : List α) (acc : List β) :
    l.foldl (fun s p => s ++ [f p]) acc = acc ++ l.map f := by
  induction l generalizing acc with
  | nil => simp
  | cons a l ih => simp [ih]

theorem newPluginItems_eq (l : List Plugin) : newPluginItems l = l.map Plugin.Name := by
  simp [newPluginItems, foldl_snoc_map]

theorem updatedPluginItems_eq (oi : GoMap Plugin) (l : List Plugin) :
    updatedPluginItems oi l =
      l.map (fun p => p.Name ++ " " ++ (oi.index p.Name).Spec.Version ++ " -> " ++ p.Spec.Version) := by
  simp [updatedPluginItems, foldl_snoc_map]

/-- The loop over `posUpdate`, from any pair of lists. -/
theorem scan_foldl (oi : GoMap Plugin) (inst : GoMap String) (post : List Plugin)
    (acc : List Plugin × List Plugin) :
    post.foldl (scanStep oi inst) acc =
      (acc.1 ++ post.filter (isNewB oi), acc.2 ++ post.filter (isUpdB oi inst)) := by
  induction post generalizing acc with
  | nil => simp
  | cons p post ih =>
    rw [List.foldl_cons, ih]
    unfold scanStep isNewB isUpdB
    cases h1 : oi p.Name with
    | none => simp [List.filter_cons, h1]
    | some old =>
      cases h2 : inst p.Name with
      | none => simp [List.filter_cons, h1, h2]
      | some v =>
        by_cases h3 : old.Spec.Version = p.Spec.Version
        · simp [List.filter_cons, h1, h2, h3]
        · simp [List.filter_cons, h1, h2, h3]

theorem scanPosUpdate_eq (oi : GoMap Plugin) (inst : GoMap String) (post : List Plugin) :
    scanPosUpdate oi inst post = (post.filter (isNewB oi), post.filter (isUpdB oi inst)) := by
  simp [scanPosUpdate, scan_foldl]

theorem showUpdatedPlugins_eq (out : Writer) (pre post : List Plugin) (inst : GoMap String) :
    showUpdatedPlugins out pre post inst =
      out ++ sectionIfAny "New plugins available"
          (newPluginItems (scanPosUpdate (oldIndexOf pre) inst post).1) ++
        sectionIfAny "Upgrades available for installed plugins"
          (updatedPluginItems (oldIndexOf pre) (scanPosUpdate (oldIndexOf pre) inst post).2) := by
  simp only [showUpdatedPlugins, sectionIfAny, showFormattedPluginsInfo_eq, newPluginItems_eq,
    updatedPluginItems_eq, List.map_eq_nil_iff, gt_iff_lt, List.length_pos]
  by_cases h1 : (scanPosUpdate (oldIndexOf pre) inst post).1 = [] <;>
  by_cases h2 : (scanPosUpdate (oldIndexOf pre) inst post).2 = [] <;>
  simp [h1, h2]


theorem foldl_set_none (pre : List Plugin) (m : GoMap Plugin) (k : String) :
    (pre.foldl (fun m p => m.set p.Name p) m) k = none ↔
      m k = none ∧ ∀ q ∈ pre, q.Name ≠ k := by
  induction pre generalizing m with
  | nil => simp
  | cons a pre ih =>
    rw [List.foldl_cons, ih]
    by_cases h : k = a.Name
    · simp [GoMap.set, h]
    · have h' : ¬ a.Name = k := fun e => h e.symm
      simp [GoMap.set, h, h']

theorem foldl_set_some (pre : List Plugin) (m : GoMap Plugin) (k : String) (old : Plugin)
    (h : (pre.foldl (fun m p => m.set p.Name p) m) k = some old) :
    m k = some old ∨ (old ∈ pre ∧ old.Name = k) := by
  induction pre generalizing m with
  | nil => exact Or.inl h
  | cons a pre ih =>
    rw [List.foldl_cons] at h
    rcases ih _ h with h1 | ⟨h1, h2⟩
    · by_cases hk : k = a.Name
      · simp [GoMap.set, hk] at h1
        right; subst h1; simp [hk]
      · simp [GoMap.set, hk] at h1
        exact Or.inl h1
    · exact Or.inr ⟨List.mem_cons_of_mem _ h1, h2⟩

theorem oldIndexOf_none (pre : List Plugin) (k : String) :
    oldIndexOf pre k = none ↔ ∀ q ∈ pre, q.Name ≠ k := by
  simp [oldIndexOf, foldl_set_none, GoMap.empty]

theorem oldIndexOf_some (pre : List Plugin) (k : String) (old : Plugin)
    (h : oldIndexOf pre k = some old) : old ∈ pre ∧ old.Name = k := by
  rcases foldl_set_some pre GoMap.empty k old h with h1 | h1
  · simp [GoMap.empty] at h1
  · exact h1

theorem oldIndexOf_mem (pre : List Plugin) (hnd : (pre.map Plugin.Name).Nodup) (q : Plugin)
    (hq : q ∈ pre) : oldIndexOf pre q.Name = some q := by
  cases h : oldIndexOf pre q.Name with
  | none => exact absurd rfl ((oldIndexOf_none pre q.Name).1 h q hq)
  | some old =>
    obtain ⟨h1, h2⟩ := oldIndexOf_some pre q.Name old h
    rw [List.inj_on_of_nodup_map hnd h1 hq h2]

theorem isNewB_iff (pre : List Plugin) (p : Plugin) :
    isNewB (oldIndexOf pre) p = decide (IsNew pre p) := by
  rw [Bool.eq_iff_iff]
  simp [isNewB, IsNew, Option.isNone_iff_eq_none, oldIndexOf_none]

theorem isUpdB_iff (pre : List Plugin) (hnd : (pre.map Plugin.Name).Nodup)
    (inst : GoMap String) (p : Plugin) :
    isUpdB (oldIndexOf pre) inst p = decide (IsUpgrade pre inst p) := by
  rw [Bool.eq_iff_iff]
  simp only [isUpdB, IsUpgrade, decide_eq_true_eq]
  constructor
  · intro h
    cases h1 : oldIndexOf pre p.Name with
    | none => simp [h1] at h
    | some old =>
      simp [h1] at h
      obtain ⟨h2, h3⟩ := oldIndexOf_some pre p.Name old h1
      exact ⟨⟨old, h2, h3, h.2⟩, h.1⟩
  · rintro ⟨⟨q, hq, hn, hv⟩, hi⟩
    have := oldIndexOf_mem pre hnd q hq
    rw [hn] at this
    simp [this, hi, hv]

theorem preVersion_mem (pre : List Plugin) (hnd : (pre.map Plugin.Name).Nodup) (q : Plugin)
    (hq : q ∈ pre) : preVersion pre q.Name = q.Spec.Version := by
  unfold preVersion
  cases h : pre.find? (fun r => decide (r.Name = q.Name)) with
  | none =>
    have := List.find?_eq_none.1 h q hq
    simp at this
  | some r =>
    have h1 := List.mem_of_find?_eq_some h
    have h2 := List.find?_some h
    simp at h2
    rw [List.inj_on_of_nodup_map hnd h1 hq h2]

theorem index_version (pre : List Plugin) (hnd : (pre.map Plugin.Name).Nodup) (name : String) :
    ((oldIndexOf pre).index name).Spec.Version = preVersion pre name := by
  unfold GoMap.index
  cases h : oldIndexOf pre name with
  | none =>
    have h1 := (oldIndexOf_none pre name).1 h
    have : pre.find? (fun q => decide (q.Name = name)) = none := by
      rw [List.find?_eq_none]; intro q hq; simpa using h1 q hq
    simp [preVersion, this]
    rfl
  | some old =>
    obtain ⟨h1, h2⟩ := oldIndexOf_some pre name old h
    rw [← h2, preVersion_mem pre hnd old h1]
    rfl


/-! ## The diff report: claims -/

/-- C4: for a pre snapshot with pairwise-distinct names, the items listed under
"Upgrades available for installed plugins" are the upgrade lines of exactly the post
entries for which some pre entry has the same name with a different version string and
whose name is a key of `installed`, in the order of `post`; the line of an entry is
`name preVersion -> postVersion`, the pre version being that of the pre entry of the
same name. -/
theorem showUpdatedPlugins_upgrades (out : Writer) (pre post : List Plugin)
    (installed : GoMap String) (hnd : (pre.map Plugin.Name).Nodup) :
    (scanPosUpdate (oldIndexOf pre) installed post).2 =
        post.filter (fun p => decide (IsUpgrade pre installed p)) ∧
      (∀ p, p ∈ (scanPosUpdate (oldIndexOf pre) installed post).2 ↔
        p ∈ post ∧ (∃ q ∈ pre, q.Name = p.Name ∧ q.Spec.Version ≠ p.Spec.Version) ∧
          ∃ v, installed p.Name = some v) ∧
      (∀ p q, q ∈ pre → q.Name = p.Name →
        upgradeLine pre p = p.Name ++ " " ++ q.Spec.Version ++ " -> " ++ p.Spec.Version) ∧
      showUpdatedPlugins out pre post installed =
        out ++ sectionIfAny "New plugins available"
            (newPluginItems (scanPosUpdate (oldIndexOf pre) installed post).1) ++
          sectionIfAny "Upgrades available for installed plugins"
            ((post.filter (fun p => decide (IsUpgrade pre installed p))).map (upgradeLine pre)) := by
  have hscan : (scanPosUpdate (oldIndexOf pre) installed post).2 =
      post.filter (fun p => decide (IsUpgrade pre installed p)) := by
    rw [scanPosUpdate_eq]
    exact List.filter_congr (fun p _ => isUpdB_iff pre hnd installed p)
  refine ⟨hscan, ?_, ?_, ?_⟩
  · intro p
    rw [hscan, List.mem_filter]
    simp [IsUpgrade, Option.isSome_iff_exists]
  · intro p q hq hn
    unfold upgradeLine
    rw [← hn, preVersion_mem pre hnd q hq]
  · rw [showUpdatedPlugins_eq, updatedPluginItems_eq, hscan]
    congr 2
    apply List.map_congr_left
    intro p _
    simp only [upgradeLine, index_version pre hnd]

/-- C5: the items listed under "New plugins available" are the names of exactly the
post entries whose name is the name of no pre entry, in the order of `post`, whatever
the installed map. -/
theorem showUpdatedPlugins_new (out : Writer) (pre post : List Plugin)
    (installed : GoMap String) :
    newPluginItems (scanPosUpdate (oldIndexOf pre) installed post).1 =
        (post.filter (fun p => decide (IsNew pre p))).map Plugin.Name ∧
      (∀ p, p ∈ (scanPosUpdate (oldIndexOf pre) installed post).1 ↔
        p ∈ post ∧ ∀ q ∈ pre, q.Name ≠ p.Name) ∧
      showUpdatedPlugins out pre post installed =
        out ++ sectionIfAny "New plugins available"
            ((post.filter (fun p => decide (IsNew pre p))).map Plugin.Name) ++
          sectionIfAny "Upgrades available for installed plugins"
            (updatedPluginItems (oldIndexOf pre)
              (scanPosUpdate (oldIndexOf pre) installed post).2) := by
  have hscan : (scanPosUpdate (oldIndexOf pre) installed post).1 =
      post.filter (fun p => decide (IsNew pre p)) := by
    rw [scanPosUpdate_eq]
    exact List.filter_congr (fun p _ => isNewB_iff pre p)
  refine ⟨by rw [newPluginItems_eq, hscan], ?_, ?_⟩
  · intro p
    rw [hscan, List.mem_filter]
    simp [IsNew]
  · rw [showUpdatedPlugins_eq, newPluginItems_eq, hscan]

/-- C6: with pairwise-distinct entry names, diffing a snapshot against itself writes
nothing, whatever the installed map. -/
theorem showUpdatedPlugins_same (out : Writer) (s : List Plugin) (installed : GoMap String)
    (hnd : (s.map Plugin.Name).Nodup) :
    showUpdatedPlugins out s s installed = out := by
  have h1 : (scanPosUpdate (oldIndexOf s) installed s).1 = [] := by
    rw [scanPosUpdate_eq, List.filter_eq_nil_iff]
    intro p hp
    simp [isNewB, oldIndexOf_mem s hnd p hp]
  have h2 : (scanPosUpdate (oldIndexOf s) installed s).2 = [] := by
    rw [scanPosUpdate_eq, List.filter_eq_nil_iff]
    intro p hp
    simp [isUpdB, oldIndexOf_mem s hnd p hp]
  simp [showUpdatedPlugins, h1, h2]

/-- Witness of C6 on a two-entry snapshot with one entry installed. -/
theorem showUpdatedPlugins_same_witness :
    ([(⟨"foo", ⟨"1.0"⟩⟩ : Plugin), ⟨"bar", ⟨"0.3"⟩⟩].map Plugin.Name).Nodup ∧
      showUpdatedPlugins ["earlier"] [⟨"foo", ⟨"1.0"⟩⟩, ⟨"bar", ⟨"0.3"⟩⟩]
        [⟨"foo", ⟨"1.0"⟩⟩, ⟨"bar", ⟨"0.3"⟩⟩] (GoMap.empty.set "foo" "1.0") = ["earlier"] :=
  ⟨by decide, showUpdatedPlugins_same _ _ _ (by decide)⟩

/-- Witness of C4: `foo` is installed and changes version, `baz` changes version but
is not installed, `bar` is new. -/
theorem showUpdatedPlugins_upgrades_witness :
    ([(⟨"foo", ⟨"1.0"⟩⟩ : Plugin), ⟨"baz", ⟨"0.1"⟩⟩].map Plugin.Name).Nodup ∧
      (scanPosUpdate (oldIndexOf [⟨"foo", ⟨"1.0"⟩⟩, ⟨"baz", ⟨"0.1"⟩⟩]) (GoMap.empty.set "foo" "1.0")
          [⟨"baz", ⟨"0.2"⟩⟩, ⟨"foo", ⟨"2.0"⟩⟩, ⟨"bar", ⟨"1.0"⟩⟩]).2 = [⟨"foo", ⟨"2.0"⟩⟩] ∧
      showUpdatedPlugins [] [⟨"foo", ⟨"1.0"⟩⟩, ⟨"baz", ⟨"0.1"⟩⟩]
          [⟨"baz", ⟨"0.2"⟩⟩, ⟨"foo", ⟨"2.0"⟩⟩, ⟨"bar", ⟨"1.0"⟩⟩] (GoMap.empty.set "foo" "1.0") =
        ["  New plugins available:\n    * bar\n",
          "  Upgrades available for installed plugins:\n    * foo 1.0 -> 2.0\n"] :=
  ⟨by decide,
    (showUpdatedPlugins_upgrades [] [⟨"foo", ⟨"1.0"⟩⟩, ⟨"baz", ⟨"0.1"⟩⟩]
      [⟨"baz", ⟨"0.2"⟩⟩, ⟨"foo", ⟨"2.0"⟩⟩, ⟨"bar", ⟨"1.0"⟩⟩] (GoMap.empty.set "foo" "1.0")
      (by decide)).1.trans (by decide),
    (showUpdatedPlugins_upgrades [] [⟨"foo", ⟨"1.0"⟩⟩, ⟨"baz", ⟨"0.1"⟩⟩]
      [⟨"baz", ⟨"0.2"⟩⟩, ⟨"foo", ⟨"2.0"⟩⟩, ⟨"bar", ⟨"1.0"⟩⟩] (GoMap.empty.set "foo" "1.0")
      (by decide)).2.2.2.trans (by decide)⟩

/-- C8: the output of `showUpdatedPlugins` is what was written before, then the
section "New plugins available" if it has an item, then the section "Upgrades available
for installed plugins" if it has an item, each rendered as its header line followed by
one bullet line per item; on the example of the specification the output is the stated
text. -/
theorem showUpdatedPlugins_sections (out : Writer) (pre post : List Plugin)
    (installed : GoMap String) :
    showUpdatedPlugins out pre post installed =
        out ++ sectionIfAny "New plugins available"
            (newPluginItems (scanPosUpdate (oldIndexOf pre) installed post).1) ++
          sectionIfAny "Upgrades available for installed plugins"
            (updatedPluginItems (oldIndexOf pre)
              (scanPosUpdate (oldIndexOf pre) installed post).2) ∧
      (∀ header items, sectionIfAny header items ≠ [] ↔ items ≠ []) ∧
      (∀ header item items, sectionText header (item :: items) =
        "  " ++ header ++ ":\n" ++ ("    * " ++ item ++ "\n") ++ bulletLines items) ∧
      String.join (showUpdatedPlugins [] [⟨"foo", ⟨"1.0"⟩⟩]
          [⟨"foo", ⟨"2.0"⟩⟩, ⟨"bar", ⟨"1.0"⟩⟩] (GoMap.empty.set "foo" "1.0")) =
        "  New plugins available:\n    * bar\n  Upgrades available for installed plugins:\n    * foo 1.0 -> 2.0\n" := by
  refine ⟨showUpdatedPlugins_eq out pre post installed, ?_, ?_, by decide⟩
  · intro header items
    by_cases h : items = [] <;> simp [sectionIfAny, h]
  · intro header item items
    simp [sectionText, bulletLines, String.append_assoc]


/-! ## Lemmas on the sync loop -/

theorem syncCalls_append (a b : List Event) : syncCalls (a ++ b) = syncCalls a ++ syncCalls b := by
  induction a with
  | nil => rfl
  | cons e a ih => cases e <;> simp [syncCalls, ih]

theorem stderrWrites_append (a b : List Event) :
    stderrWrites (a ++ b) = stderrWrites a ++ stderrWrites b := by
  induction a with
  | nil => rfl
  | cons e a ih => cases e <;> simp [stderrWrites, ih]

theorem stderrOutput_append (v : Nat) (a b : List Event) :
    stderrOutput v (a ++ b) = stderrOutput v a ++ stderrOutput v b := by
  induction a with
  | nil => rfl
  | cons e a ih =>
    cases e <;> by_cases hv : 1 ≤ v <;> simp [stderrOutput, ih, hv]

theorem syncCalls_map_stderr (l : List String) : syncCalls (l.map Event.stderr) = [] := by
  induction l with
  | nil => rfl
  | cons a l ih => simp [syncCalls, ih]

theorem stderrWrites_map_stderr (l : List String) : stderrWrites (l.map Event.stderr) = l := by
  induction l with
  | nil => rfl
  | cons a l ih => simp [stderrWrites, ih]

/-- The loop over the indexes, from any state. -/
theorem sync_foldl (c : Collaborators) (paths : Paths) (indexes : List Index) (st : SyncState) :
    (indexes.foldl (syncStep c paths) st).failed =
        st.failed ++ failedNames (syncOutcomesFrom c paths st.calls indexes) ∧
      (indexes.foldl (syncStep c paths) st).returnErr =
        (match st.returnErr with
          | some e => some e
          | none => firstSyncError (syncOutcomesFrom c paths st.calls indexes)) ∧
      syncCalls (indexes.foldl (syncStep c paths) st).trace =
        syncCalls st.trace ++ indexes.map (fun idx => (idx.URL, paths.IndexPath idx.Name)) ∧
      stderrWrites (indexes.foldl (syncStep c paths) st).trace = stderrWrites st.trace := by
  induction indexes generalizing st with
  | nil => cases h : st.returnErr <;> simp [syncOutcomesFrom, failedNames, firstSyncError, h]
  | cons idx rest ih =>
    rw [List.foldl_cons]
    obtain ⟨h1, h2, h3, h4⟩ := ih (syncStep c paths st idx)
    rw [h1, h2, h3, h4]
    unfold syncStep
    cases hs : c.EnsureUpdated st.calls idx.URL (paths.IndexPath idx.Name) with
    | none =>
      cases hr : st.returnErr <;>
        simp [syncOutcomesFrom, failedNames, firstSyncError, hs, hr, syncCalls_append,
          stderrWrites_append, syncCalls, stderrWrites, List.filter_cons, List.findSome?_cons]
    | some err =>
      cases hr : st.returnErr <;>
        simp [syncOutcomesFrom, failedNames, firstSyncError, hs, hr, syncCalls_append,
          stderrWrites_append, syncCalls, stderrWrites, List.filter_cons, List.findSome?_cons]

theorem firstSyncError_none (outcomes : List (Index × Option GoError)) :
    firstSyncError outcomes = none ↔ ∀ o ∈ outcomes, o.2 = none := by
  simp [firstSyncError, List.findSome?_eq_none_iff]


/-- The function once the indexes are listed, with the Go pairs taken apart. -/
theorem ensure_listed (c : Collaborators) (paths : Paths) (dn : String) (indexes : List Index)
    (hlist : c.ListIndexes = (indexes, none)) :
    ensureIndexesUpdated c paths dn =
      (let preUpdateIndex := (c.LoadPluginListFromFS 0 (paths.IndexPluginsPath dn)).1
       let st := indexes.foldl (syncStep c paths) ⟨[], none, [], 0⟩
       let trace := st.trace ++ [Event.stderr confirmationLine]
       if preUpdateIndex = [] then (none, trace)
       else
         match (c.LoadPluginListFromFS 1 (paths.IndexPluginsPath dn)).2 with
         | some err => (some (.wrapped "failed to load plugin index after update" err), trace)
         | none =>
           match (c.GetInstalledPluginReceipts paths.InstallReceiptsPath).2 with
           | some err =>
             (some (.wrapped "failed to load installed plugins list after update" err), trace)
           | none =>
             (Wrapf st.returnErr
                 ("failed to update the following indexes: " ++ ", ".intercalate st.failed ++ "\n"),
               trace ++ (showUpdatedPlugins [] preUpdateIndex
                 (c.LoadPluginListFromFS 1 (paths.IndexPluginsPath dn)).1
                 (installedPluginsOf
                   (c.GetInstalledPluginReceipts paths.InstallReceiptsPath).1)).map
                   Event.stderr)) := by
  unfold ensureIndexesUpdated
  rw [hlist]
  simp only [List.length_eq_zero]
  split
  · rfl
  · rcases h1 : c.LoadPluginListFromFS 1 (paths.IndexPluginsPath dn) with ⟨post, e1⟩
    cases e1 with
    | some err => simp [Wrap]
    | none =>
      rcases h2 : c.GetInstalledPluginReceipts paths.InstallReceiptsPath with ⟨rec, e2⟩
      cases e2 with
      | some err => simp [Wrap]
      | none => simp


theorem sync_loop (c : Collaborators) (paths : Paths) (indexes : List Index) :
    (indexes.foldl (syncStep c paths) ⟨[], none, [], 0⟩).failed =
        failedNames (syncOutcomes c paths indexes) ∧
      (indexes.foldl (syncStep c paths) ⟨[], none, [], 0⟩).returnErr =
        firstSyncError (syncOutcomes c paths indexes) ∧
      syncCalls (indexes.foldl (syncStep c paths) ⟨[], none, [], 0⟩).trace =
        indexes.map (fun idx => (idx.URL, paths.IndexPath idx.Name)) ∧
      stderrWrites (indexes.foldl (syncStep c paths) ⟨[], none, [], 0⟩).trace = [] := by
  obtain ⟨h1, h2, h3, h4⟩ := sync_foldl c paths indexes ⟨[], none, [], 0⟩
  refine ⟨?_, ?_, ?_, ?_⟩
  · simpa [syncOutcomes] using h1
  · simpa [syncOutcomes] using h2
  · simpa [syncCalls] using h3
  · simpa [stderrWrites] using h4

theorem mentions_append_left (a b x : String) (h : Mentions a x) : Mentions (a ++ b) x := by
  unfold Mentions at *
  rw [String.data_append]
  exact h.trans (List.prefix_append _ _).isInfix

theorem mentions_append_right (a b x : String) (h : Mentions b x) : Mentions (a ++ b) x := by
  unfold Mentions at *
  rw [String.data_append]
  exact h.trans (List.suffix_append _ _).isInfix

theorem mentions_self (x : String) : Mentions x x := List.infix_refl _

theorem mentions_intercalate_go (sep x : String) (rest : List String) (acc : String)
    (h : Mentions acc x ∨ x ∈ rest) : Mentions (String.intercalate.go acc sep rest) x := by
  induction rest generalizing acc with
  | nil =>
    rcases h with h | h
    · simpa [String.intercalate.go] using h
    · simp at h
  | cons a rest ih =>
    rw [String.intercalate.go]
    apply ih
    rcases h with h | h
    · exact Or.inl (mentions_append_left _ _ _ (mentions_append_left _ _ _ h))
    · rcases List.mem_cons.1 h with h | h
      · subst h
        exact Or.inl (mentions_append_right _ _ _ (mentions_self _))
      · exact Or.inr h

theorem mentions_intercalate (sep x : String) (l : List String) (h : x ∈ l) :
    Mentions (sep.intercalate l) x := by
  cases l with
  | nil => simp at h
  | cons a rest =>
    rw [String.intercalate]
    apply mentions_intercalate_go
    rcases List.mem_cons.1 h with h | h
    · subst h
      exact Or.inl (mentions_self _)
    · exact Or.inr h

theorem firstSyncError_some (outcomes : List (Index × Option GoError))
    (h : ¬ ∀ o ∈ outcomes, o.2 = none) : ∃ first, firstSyncError outcomes = some first := by
  cases hf : firstSyncError outcomes with
  | none => exact absurd ((firstSyncError_none outcomes).1 hf) h
  | some first => exact ⟨first, rfl⟩

theorem sectionText_ne_confirmation (header : String) (items : List String) :
    sectionText header items ≠ confirmationLine := by
  intro h
  have := congrArg String.data h
  simp [sectionText, confirmationLine, String.data_append] at this


/-- The returned value when every load succeeds: the first sync error, wrapped. -/
theorem ensure_result (c : Collaborators) (paths : Paths) (dn : String)
    (indexes : List Index) (hlist : c.ListIndexes = (indexes, none))
    (hpre : (c.LoadPluginListFromFS 0 (paths.IndexPluginsPath dn)).1 ≠ [])
    (hpost : (c.LoadPluginListFromFS 1 (paths.IndexPluginsPath dn)).2 = none)
    (hrec : (c.GetInstalledPluginReceipts paths.InstallReceiptsPath).2 = none) :
    (ensureIndexesUpdated c paths dn).1 =
      Wrapf (firstSyncError (syncOutcomes c paths indexes))
        ("failed to update the following indexes: " ++
          ", ".intercalate (failedNames (syncOutcomes c paths indexes)) ++ "\n") := by
  obtain ⟨h1, h2, -, -⟩ := sync_loop c paths indexes
  rw [ensure_listed c paths dn indexes hlist]
  simp only [hpre, hpost, hrec, if_false, h1, h2]

/-- With an empty pre-update snapshot the function returns nil right after the
confirmation line, whatever the sync calls returned. -/
theorem ensure_result_empty (c : Collaborators) (paths : Paths) (dn : String)
    (indexes : List Index) (hlist : c.ListIndexes = (indexes, none))
    (hpre : (c.LoadPluginListFromFS 0 (paths.IndexPluginsPath dn)).1 = []) :
    (ensureIndexesUpdated c paths dn).1 = none := by
  rw [ensure_listed c paths dn indexes hlist]
  simp [hpre]

/-! ## `ensureIndexesUpdated`: claims -/

/-- C2: when the indexes are listed, the pre-update snapshot is non-empty and the
post-update snapshot and the receipts load, `ensureIndexesUpdated` returns nil exactly
when no sync failed; otherwise it returns the error of the first failing index wrapped
with the message "failed to update the following indexes: " followed by the names of
the failing indexes, in registry order, joined by ", " (and the newline that ends the
format). -/
theorem ensureIndexesUpdated_aggregate (c : Collaborators) (paths : Paths) (dn : String)
    (indexes : List Index) (hlist : c.ListIndexes = (indexes, none))
    (hpre : (c.LoadPluginListFromFS 0 (paths.IndexPluginsPath dn)).1 ≠ [])
    (hpost : (c.LoadPluginListFromFS 1 (paths.IndexPluginsPath dn)).2 = none)
    (hrec : (c.GetInstalledPluginReceipts paths.InstallReceiptsPath).2 = none) :
    ((ensureIndexesUpdated c paths dn).1 = none ↔
        ∀ o ∈ syncOutcomes c paths indexes, o.2 = none) ∧
      ((¬ ∀ o ∈ syncOutcomes c paths indexes, o.2 = none) →
        ∃ first, firstSyncError (syncOutcomes c paths indexes) = some first ∧
          (ensureIndexesUpdated c paths dn).1 =
            some (.wrapped
              ("failed to update the following indexes: " ++
                ", ".intercalate (failedNames (syncOutcomes c paths indexes)) ++ "\n")
              first)) := by
  have hres := ensure_result c paths dn indexes hlist hpre hpost hrec
  constructor
  · rw [hres, ← firstSyncError_none]
    cases firstSyncError (syncOutcomes c paths indexes) <;> simp [Wrapf, Wrap]
  · intro hfail
    obtain ⟨first, hfirst⟩ := firstSyncError_some _ hfail
    exact ⟨first, hfirst, by rw [hres, hfirst]; rfl⟩

/-- Witness of C2: of three indexes the second and the third fail with different
errors; the message names both, the cause is the error of the second. -/
theorem ensureIndexesUpdated_aggregate_witness :
    (partialFailure.LoadPluginListFromFS 0 (examplePaths.IndexPluginsPath "default")).1 ≠ [] ∧
      (ensureIndexesUpdated partialFailure examplePaths "default").1 =
        some (.wrapped "failed to update the following indexes: custom, third\n"
          (.base "net down")) ∧
      ((ensureIndexesUpdated partialFailure examplePaths "default").1 = none ↔
        ∀ o ∈ syncOutcomes partialFailure examplePaths partialFailure.ListIndexes.1,
          o.2 = none) :=
  ⟨by decide, by decide,
    (ensureIndexesUpdated_aggregate partialFailure examplePaths "default"
      partialFailure.ListIndexes.1 rfl (by decide) rfl rfl).1⟩

/-- C1, as the code has it: when the indexes are listed and the pre-update snapshot is
non-empty, a failed sync makes `ensureIndexesUpdated` return a non-nil error; when the
post-update snapshot and the receipts load as well, the message of that error mentions
the name of every index whose sync failed. -/
theorem ensureIndexesUpdated_failure_reported (c : Collaborators) (paths : Paths) (dn : String)
    (indexes : List Index) (hlist : c.ListIndexes = (indexes, none))
    (hpre : (c.LoadPluginListFromFS 0 (paths.IndexPluginsPath dn)).1 ≠ [])
    (hfail : ∃ o ∈ syncOutcomes c paths indexes, o.2 ≠ none) :
    ∃ e, (ensureIndexesUpdated c paths dn).1 = some e ∧
      ((c.LoadPluginListFromFS 1 (paths.IndexPluginsPath dn)).2 = none →
        (c.GetInstalledPluginReceipts paths.InstallReceiptsPath).2 = none →
        ∀ o ∈ syncOutcomes c paths indexes, o.2 ≠ none → Mentions e.message o.1.Name) := by
  have hfail' : ¬ ∀ o ∈ syncOutcomes c paths indexes, o.2 = none := by
    obtain ⟨o, ho, hne⟩ := hfail
    exact fun h => hne (h o ho)
  cases hpost : (c.LoadPluginListFromFS 1 (paths.IndexPluginsPath dn)).2 with
  | some err =>
    refine ⟨.wrapped "failed to load plugin index after update" err, ?_, by simp⟩
    rw [ensure_listed c paths dn indexes hlist]
    simp only [hpre, hpost, if_false]
  | none =>
    cases hrec : (c.GetInstalledPluginReceipts paths.InstallReceiptsPath).2 with
    | some err =>
      refine ⟨.wrapped "failed to load installed plugins list after update" err, ?_, by simp⟩
      rw [ensure_listed c paths dn indexes hlist]
      simp only [hpre, hpost, hrec, if_false]
    | none =>
      obtain ⟨first, hfirst⟩ := firstSyncError_some _ hfail'
      have hres := ensure_result c paths dn indexes hlist hpre hpost hrec
      rw [hfirst] at hres
      refine ⟨_, hres, fun _ _ o ho hne => ?_⟩
      simp only [GoError.message]
      apply mentions_append_left
      apply mentions_append_right
      apply mentions_intercalate
      simp only [failedNames, List.mem_map, List.mem_filter]
      exact ⟨o, ⟨ho, by cases h : o.2 <;> simp_all⟩, rfl⟩

/-- Witness of the amended C1 on the run with two failing indexes. -/
theorem ensureIndexesUpdated_failure_reported_witness :
    (∃ o ∈ syncOutcomes partialFailure examplePaths partialFailure.ListIndexes.1, o.2 ≠ none) ∧
      ∃ e, (ensureIndexesUpdated partialFailure examplePaths "default").1 = some e ∧
        ((partialFailure.LoadPluginListFromFS 1 (examplePaths.IndexPluginsPath "default")).2 = none →
          (partialFailure.GetInstalledPluginReceipts examplePaths.InstallReceiptsPath).2 = none →
          ∀ o ∈ syncOutcomes partialFailure examplePaths partialFailure.ListIndexes.1,
            o.2 ≠ none → Mentions e.message o.1.Name) :=
  ⟨by decide,
    ensureIndexesUpdated_failure_reported partialFailure examplePaths "default"
      partialFailure.ListIndexes.1 rfl (by decide) (by decide)⟩

/-- Counterexample to C1 as stated: the index `custom` fails to sync and the default
index cannot be read back; the returned error is the wrapped load error, whose text
does not mention `custom`. -/
theorem ensureIndexesUpdated_failure_not_enumerated :
    postLoadFailure.ListIndexes.2 = none ∧
      ((⟨"custom", "https://b"⟩, some (.base "net down")) ∈
        syncOutcomes postLoadFailure examplePaths postLoadFailure.ListIndexes.1) ∧
      (ensureIndexesUpdated postLoadFailure examplePaths "default").1 =
        some (.wrapped "failed to load plugin index after update" (.base "EOF")) ∧
      ¬ ∃ e, (ensureIndexesUpdated postLoadFailure examplePaths "default").1 = some e ∧
        Mentions e.Error "custom" := by
  refine ⟨rfl, by decide, by decide, ?_⟩
  rintro ⟨e, he, hm⟩
  have h : (ensureIndexesUpdated postLoadFailure examplePaths "default").1 =
      some (.wrapped "failed to load plugin index after update" (.base "EOF")) := by decide
  rw [h] at he
  cases he
  revert hm
  decide


/-- The shape of the trace: the loop, the confirmation line, then the report if any. -/
theorem ensure_trace (c : Collaborators) (paths : Paths) (dn : String) (indexes : List Index)
    (hlist : c.ListIndexes = (indexes, none)) :
    ∃ report : List String,
      (ensureIndexesUpdated c paths dn).2 =
          (indexes.foldl (syncStep c paths) ⟨[], none, [], 0⟩).trace ++
            Event.stderr confirmationLine :: report.map Event.stderr ∧
        (report = [] ∨
          ((c.LoadPluginListFromFS 0 (paths.IndexPluginsPath dn)).1 ≠ [] ∧
            (c.LoadPluginListFromFS 1 (paths.IndexPluginsPath dn)).2 = none ∧
            (c.GetInstalledPluginReceipts paths.InstallReceiptsPath).2 = none ∧
            report = showUpdatedPlugins [] (c.LoadPluginListFromFS 0 (paths.IndexPluginsPath dn)).1
              (c.LoadPluginListFromFS 1 (paths.IndexPluginsPath dn)).1
              (installedPluginsOf (c.GetInstalledPluginReceipts paths.InstallReceiptsPath).1))) := by
  rw [ensure_listed c paths dn indexes hlist]
  by_cases hpre : (c.LoadPluginListFromFS 0 (paths.IndexPluginsPath dn)).1 = []
  · exact ⟨[], by simp [hpre], Or.inl rfl⟩
  · cases hpost : (c.LoadPluginListFromFS 1 (paths.IndexPluginsPath dn)).2 with
    | some err => exact ⟨[], by simp [hpre], Or.inl rfl⟩
    | none =>
      cases hrec : (c.GetInstalledPluginReceipts paths.InstallReceiptsPath).2 with
      | some err => exact ⟨[], by simp [hpre], Or.inl rfl⟩
      | none => exact ⟨_, by simp [hpre], Or.inr ⟨hpre, rfl, rfl, rfl⟩⟩

/-- C3: when the indexes are listed, the trace of `ensureIndexesUpdated` is a first
part in which the sync primitive is called once for each registered index, in registry
order, with the URL and the local path of that index, and in which the function writes
nothing with `fmt`; then the confirmation line; then a last part without any sync call
and without a second confirmation line. This holds whatever the sync calls return. -/
theorem ensureIndexesUpdated_trace (c : Collaborators) (paths : Paths) (dn : String)
    (indexes : List Index) (hlist : c.ListIndexes = (indexes, none)) :
    ∃ before after,
      (ensureIndexesUpdated c paths dn).2 = before ++ Event.stderr confirmationLine :: after ∧
        syncCalls before = indexes.map (fun idx => (idx.URL, paths.IndexPath idx.Name)) ∧
        stderrWrites before = [] ∧
        syncCalls after = [] ∧
        confirmationLine ∉ stderrWrites after ∧
        confirmationLine = "Updated the local copy of plugin index.\n" := by
  obtain ⟨report, htrace, hreport⟩ := ensure_trace c paths dn indexes hlist
  obtain ⟨-, -, h3, h4⟩ := sync_loop c paths indexes
  refine ⟨_, _, htrace, h3, h4, syncCalls_map_stderr _, ?_, rfl⟩
  rw [stderrWrites_map_stderr]
  rcases hreport with h | ⟨-, -, -, h⟩
  · simp [h]
  · rw [h, showUpdatedPlugins_eq]
    intro hmem
    simp only [List.nil_append, List.mem_append, sectionIfAny] at hmem
    rcases hmem with hmem | hmem <;>
    · split at hmem
      · simp at hmem
      · exact sectionText_ne_confirmation _ _ (List.mem_singleton.1 hmem).symm

/-- Witness of C3 on the run with two failing indexes: three sync calls, then the
confirmation line, then the two sections of the report. -/
theorem ensureIndexesUpdated_trace_witness :
    syncCalls (ensureIndexesUpdated partialFailure examplePaths "default").2 =
        [("https://a", "/krew/index/default"), ("https://b", "/krew/index/custom"),
          ("https://c", "/krew/index/third")] ∧
      stderrWrites (ensureIndexesUpdated partialFailure examplePaths "default").2 =
        ["Updated the local copy of plugin index.\n", "  New plugins available:\n    * bar\n",
          "  Upgrades available for installed plugins:\n    * foo 1.0 -> 2.0\n"] ∧
      ∃ before after,
        (ensureIndexesUpdated partialFailure examplePaths "default").2 =
            before ++ Event.stderr confirmationLine :: after ∧
          syncCalls before = partialFailure.ListIndexes.1.map
            (fun idx => (idx.URL, examplePaths.IndexPath idx.Name)) ∧
          stderrWrites before = [] ∧
          syncCalls after = [] ∧
          confirmationLine ∉ stderrWrites after ∧
          confirmationLine = "Updated the local copy of plugin index.\n" :=
  ⟨by decide, by decide,
    ensureIndexesUpdated_trace partialFailure examplePaths "default"
      partialFailure.ListIndexes.1 rfl⟩

/-- The `klog` lines of the loop that reach standard error, from any state. -/
theorem sync_foldl_output (c : Collaborators) (paths : Paths) (v : Nat) (indexes : List Index)
    (st : SyncState) :
    stderrOutput v (indexes.foldl (syncStep c paths) st).trace =
      stderrOutput v st.trace ++ klogLines paths v (syncOutcomesFrom c paths st.calls indexes) := by
  induction indexes generalizing st with
  | nil => simp [syncOutcomesFrom, klogLines]
  | cons idx rest ih =>
    rw [List.foldl_cons, ih]
    unfold syncStep
    cases hs : c.EnsureUpdated st.calls idx.URL (paths.IndexPath idx.Name) <;>
      by_cases hv : 1 ≤ v <;>
        simp [syncOutcomesFrom, klogLines, hs, hv, stderrOutput_append, stderrOutput]

theorem klogLines_quiet (paths : Paths) (outcomes : List (Index × Option GoError))
    (h : ∀ o ∈ outcomes, o.2 = none) : klogLines paths 0 outcomes = [] := by
  induction outcomes with
  | nil => rfl
  | cons o rest ih =>
    obtain ⟨idx, outcome⟩ := o
    have h1 : outcome = none := h (idx, outcome) (List.mem_cons_self _ _)
    subst h1
    simp [klogLines, ih (fun o ho => h o (List.mem_cons_of_mem _ ho))]

/-- C7, as the code has it: when the indexes are listed and the pre-update snapshot is
empty, `ensureIndexesUpdated` writes no report: the confirmation line is the only chunk
it writes itself. What reaches standard error is the `klog` lines of the sync loop (one
warning per failed index, and one information line per index when `1 ≤ v`) followed by
the confirmation line; when no sync fails, at verbosity 0 that is the confirmation line
alone. This holds whatever the post-update snapshot and the receipts are. -/
theorem ensureIndexesUpdated_first_sync (c : Collaborators) (paths : Paths) (dn : String)
    (indexes : List Index) (v : Nat) (hlist : c.ListIndexes = (indexes, none))
    (hpre : (c.LoadPluginListFromFS 0 (paths.IndexPluginsPath dn)).1 = []) :
    stderrWrites (ensureIndexesUpdated c paths dn).2 = [confirmationLine] ∧
      stderrOutput v (ensureIndexesUpdated c paths dn).2 =
        klogLines paths v (syncOutcomes c paths indexes) ++ [Event.stderr confirmationLine] ∧
      ((∀ o ∈ syncOutcomes c paths indexes, o.2 = none) →
        stderrOutput 0 (ensureIndexesUpdated c paths dn).2 = [Event.stderr confirmationLine]) := by
  obtain ⟨-, -, -, h4⟩ := sync_loop c paths indexes
  have hout : ∀ w, stderrOutput w (ensureIndexesUpdated c paths dn).2 =
      klogLines paths w (syncOutcomes c paths indexes) ++ [Event.stderr confirmationLine] := by
    intro w
    have h5 := sync_foldl_output c paths w indexes ⟨[], none, [], 0⟩
    rw [ensure_listed c paths dn indexes hlist]
    simp only [hpre, if_true]
    rw [stderrOutput_append, h5]
    simp [stderrOutput, syncOutcomes]
  refine ⟨?_, hout v, fun hq => ?_⟩
  · rw [ensure_listed c paths dn indexes hlist]
    simp [hpre, stderrWrites_append, h4, stderrWrites]
  · rw [hout 0, klogLines_quiet paths _ hq]
    rfl

/-- Witness of the amended C7 on a first sync whose only index fails: the warning of
the failed index, then the confirmation line. -/
theorem ensureIndexesUpdated_first_sync_witness :
    (firstSyncFailure.LoadPluginListFromFS 0 (examplePaths.IndexPluginsPath "default")).1 = [] ∧
      stderrWrites (ensureIndexesUpdated firstSyncFailure examplePaths "default").2 =
        [confirmationLine] ∧
      stderrOutput 0 (ensureIndexesUpdated firstSyncFailure examplePaths "default").2 =
        [Event.klogWarning "default" (.base "net down"), Event.stderr confirmationLine] :=
  ⟨rfl,
    (ensureIndexesUpdated_first_sync firstSyncFailure examplePaths "default"
      firstSyncFailure.ListIndexes.1 0 rfl rfl).1,
    (ensureIndexesUpdated_first_sync firstSyncFailure examplePaths "default"
      firstSyncFailure.ListIndexes.1 0 rfl rfl).2.1.trans (by decide)⟩

/-- Counterexample to C7 as stated: on a first sync (empty pre-update snapshot) whose
only index fails, the warning of `klog` reaches standard error before the confirmation
line, so the confirmation line is not the only line written. -/
theorem ensureIndexesUpdated_first_sync_warning :
    (firstSyncFailure.LoadPluginListFromFS 0 (examplePaths.IndexPluginsPath "default")).1 = [] ∧
      firstSyncFailure.ListIndexes.2 = none ∧
      stderrOutput 0 (ensureIndexesUpdated firstSyncFailure examplePaths "default").2 =
        [Event.klogWarning "default" (.base "net down"), Event.stderr confirmationLine] ∧
      ¬ ∀ line ∈ stderrOutput 0 (ensureIndexesUpdated firstSyncFailure examplePaths "default").2,
        line = Event.stderr confirmationLine := by
  refine ⟨rfl, rfl, by decide, by decide⟩

/-- C9: when the indexes are listed and the pre-update snapshot is non-empty, a failure
to load the post-update snapshot is returned wrapped with "failed to load plugin index
after update", and, when that snapshot loads, a failure to read the receipts is
returned wrapped with "failed to load installed plugins list after update"; in both
cases the function writes the confirmation line and no report, whatever the sync
calls returned. -/
theorem ensureIndexesUpdated_load_errors (c : Collaborators) (paths : Paths) (dn : String)
    (indexes : List Index) (hlist : c.ListIndexes = (indexes, none))
    (hpre : (c.LoadPluginListFromFS 0 (paths.IndexPluginsPath dn)).1 ≠ []) :
    (∀ err, (c.LoadPluginListFromFS 1 (paths.IndexPluginsPath dn)).2 = some err →
        (ensureIndexesUpdated c paths dn).1 =
            some (.wrapped "failed to load plugin index after update" err) ∧
          stderrWrites (ensureIndexesUpdated c paths dn).2 = [confirmationLine]) ∧
      ((c.LoadPluginListFromFS 1 (paths.IndexPluginsPath dn)).2 = none →
        ∀ err, (c.GetInstalledPluginReceipts paths.InstallReceiptsPath).2 = some err →
          (ensureIndexesUpdated c paths dn).1 =
              some (.wrapped "failed to load installed plugins list after update" err) ∧
            stderrWrites (ensureIndexesUpdated c paths dn).2 = [confirmationLine]) := by
  obtain ⟨-, -, -, h4⟩ := sync_loop c paths indexes
  constructor
  · intro err hpost
    rw [ensure_listed c paths dn indexes hlist]
    simp [hpre, hpost, stderrWrites_append, h4, stderrWrites]
  · intro hpost err hrec
    rw [ensure_listed c paths dn indexes hlist]
    simp [hpre, hpost, hrec, stderrWrites_append, h4, stderrWrites]

/-- Witness of C9: one run whose post-update load fails and one whose receipts cannot
be read, each with a failing index. -/
theorem ensureIndexesUpdated_load_errors_witness :
    ((ensureIndexesUpdated postLoadFailure examplePaths "default").1 =
          some (.wrapped "failed to load plugin index after update" (.base "EOF")) ∧
        stderrWrites (ensureIndexesUpdated postLoadFailure examplePaths "default").2 =
          [confirmationLine]) ∧
      ((ensureIndexesUpdated receiptsFailure examplePaths "default").1 =
          some (.wrapped "failed to load installed plugins list after update"
            (.base "bad receipt")) ∧
        stderrWrites (ensureIndexesUpdated receiptsFailure examplePaths "default").2 =
          [confirmationLine]) :=
  ⟨(ensureIndexesUpdated_load_errors postLoadFailure examplePaths "default"
      postLoadFailure.ListIndexes.1 rfl (by decide)).1 _ rfl,
    (ensureIndexesUpdated_load_errors receiptsFailure examplePaths "default"
      receiptsFailure.ListIndexes.1 rfl (by decide)).2 rfl _ rfl⟩

/-! ## `system.go`: claims -/

/-- C10: after `init`, `index-upgrade` is a subcommand of `system` exactly when the
switch variable is present in the environment, whatever its value, and
`receipts-upgrade` is a subcommand of `system` in both cases; `system` itself is added
to the root command. -/
theorem systemInit_registration (environ : List (String × String))
    (EnableMultiIndexSwitch : String) (rootCmd : Command) :
    ("index-upgrade" ∈ (systemInit environ EnableMultiIndexSwitch rootCmd).1.commands.map
          Command.Use ↔
        ∃ value, (EnableMultiIndexSwitch, value) ∈ environ) ∧
      "receipts-upgrade" ∈ (systemInit environ EnableMultiIndexSwitch rootCmd).1.commands.map
        Command.Use ∧
      (systemInit environ EnableMultiIndexSwitch rootCmd).1.commands.map Command.Use =
        (if EnableMultiIndexSwitch ∈ environ.map Prod.fst
          then ["index-upgrade", "receipts-upgrade"] else ["receipts-upgrade"]) ∧
      (systemInit environ EnableMultiIndexSwitch rootCmd).2.commands =
        rootCmd.commands ++ [(systemInit environ EnableMultiIndexSwitch rootCmd).1] := by
  have hlook : (LookupEnv environ EnableMultiIndexSwitch).2 = true ↔
      ∃ value, (EnableMultiIndexSwitch, value) ∈ environ := by
    unfold LookupEnv
    cases h : environ.lookup EnableMultiIndexSwitch with
    | none =>
      simp only [Bool.false_eq_true, false_iff, not_exists]
      intro v hv
      have := List.lookup_eq_none_iff.1 h (EnableMultiIndexSwitch, v) hv
      simp at this
    | some v =>
      simp only [true_iff]
      induction environ with
      | nil => simp at h
      | cons a rest ih =>
        obtain ⟨k, w⟩ := a
        by_cases hk : EnableMultiIndexSwitch = k
        · exact ⟨w, by simp [hk]⟩
        · have : (EnableMultiIndexSwitch == k) = false := by simpa using hk
          rw [List.lookup_cons, this] at h
          obtain ⟨w', hw⟩ := ih h
          exact ⟨w', List.mem_cons_of_mem _ hw⟩
  have hroot : (systemInit environ EnableMultiIndexSwitch rootCmd).2.commands =
      rootCmd.commands ++ [(systemInit environ EnableMultiIndexSwitch rootCmd).1] := by
    cases rootCmd
    rfl
  by_cases hp : ∃ value, (EnableMultiIndexSwitch, value) ∈ environ
  · have hb := hlook.2 hp
    have : (systemInit environ EnableMultiIndexSwitch rootCmd).1.commands.map Command.Use =
        ["index-upgrade", "receipts-upgrade"] := by
      simp [systemInit, hb, systemCmd, indexUpgradeCmd, receiptsUpgradeCmd, Command.AddCommand,
        Command.commands, Command.Use]
    refine ⟨?_, ?_, ?_, hroot⟩
    · rw [this]; simp [hp]
    · rw [this]; simp
    · rw [this, if_pos (by simpa using hp)]
  · have hb : (LookupEnv environ EnableMultiIndexSwitch).2 = false := by
      cases h : (LookupEnv environ EnableMultiIndexSwitch).2
      · rfl
      · exact absurd (hlook.1 h) hp
    have : (systemInit environ EnableMultiIndexSwitch rootCmd).1.commands.map Command.Use =
        ["receipts-upgrade"] := by
      simp [systemInit, hb, systemCmd, indexUpgradeCmd, receiptsUpgradeCmd, Command.AddCommand,
        Command.commands, Command.Use]
    refine ⟨?_, ?_, ?_, hroot⟩
    · rw [this]; simp [hp]
    · rw [this]; simp
    · rw [this, if_neg (by simpa using hp)]

end Krew
